import Mathlib

/-!
Shallow embedding of `src/RAG/cohere_pubmed_RAG_v2.py` (class `Documents`),
the retrieval engine of a retrieval-augmented chat assistant over a
biomedical corpus.  The pipeline is: `load` (flatten source articles into
title/text passages), `embed` (batch the passages through the embedding
backend, 90 per call), `index` (build an hnswlib inner-product index over
the vectors), and `retrieve` (embed the query, k-nearest-neighbour search,
rerank the candidate texts, map the reranked indices back to passages).

The external cohere client and the hnswlib index are modelled as explicit
values (`Backend`, `VectorIndex`); fallible calls return `Except`.
Embedding vectors flow through the retrieval logic opaquely, so they are
represented as integer lists.
-/

namespace RAG

/-- An embedding vector.  The retrieval code never inspects the numeric
values (they only pass between backend and index), so the components are
modelled as integers rather than floats. -/
abbrev Vec := List Int

/-- A passage: one chunk of document text tagged with its parent article's
title, as built by `Documents.load` (lines 38-43 of the source). -/
structure Passage where
  title : String
  text : String
deriving DecidableEq, Repr, Inhabited

/-- A malformed source collection: a dict entry is missing an expected
field (`KeyError` in the source; the spec calls it `DataFormatError`). -/
inductive DataFormatError where
  | missingField (key : String) : DataFormatError
deriving DecidableEq, Repr

/-- One entry of `datasets/xray_articles.json` as `Documents.load` reads
it: a dict whose `"Title"` and `"FullText"` fields may be absent
(`none` models a missing key). -/
structure RawArticle where
  title? : Option String
  fullText? : Option (List String)
deriving DecidableEq, Repr

/-- One element of the rerank backend's result list; the source reads only
`result.index` (line 111), the index of a candidate in the submitted
document list. -/
structure RerankResult where
  index : Nat
  relevance_score : Int
deriving DecidableEq, Repr

/-- The external cohere client `co`: `embed(texts, model, input_type)` and
`rerank(query, documents, top_n, model)`.  A backend/network failure is an
`Except.error` carrying a message. -/
structure Backend where
  embed : List String → String → String → Except String (List Vec)
  rerank : String → List String → Nat → String → Except String (List RerankResult)

/-- Modelled from the spec: the hnswlib index object (the library is
external to the repository).  `knn_query vecs k` stands for the source's
`knn_query(query_embs, k)[0][0]`: the candidate-position row for the first
query vector.  Querying with `k` greater than the stored count is
undefined per the spec; hnswlib raises a runtime error, modelled as
`Except.error`. -/
structure VectorIndex where
  count : Nat
  knn_query : List Vec → Nat → Except String (List Nat)

/-- Modelled from the spec: `Documents.index` (source lines 67-77) builds
a fresh hnswlib index over all vectors, keyed by position `0..n-1`.  The
approximate search order is unspecified by the spec, so this model returns
the first `k` positions; theorems about `retrieve` treat the search result
abstractly through hypotheses instead of relying on this choice.  A query
with `k` exceeding the stored count errors, as hnswlib does. -/
def buildIndex (vecs : List Vec) : VectorIndex :=
  { count := vecs.length
    knn_query := fun _ k =>
      if k ≤ vecs.length then Except.ok ((List.range vecs.length).take k)
      else Except.error "knn_query: k exceeds stored count" }

/-- The inner loop of `Documents.load` over one article (source lines
37-43): one passage per entry of `article["FullText"]`, each carrying
`article["Title"]`.  The title key is read once per text section, so a
missing title surfaces only when the section list is non-empty. -/
def articleLoop (a : RawArticle) : List String → Except DataFormatError (List Passage)
  | [] => Except.ok []
  | t :: ts =>
    match a.title? with
    | none => Except.error (DataFormatError.missingField "Title")
    | some ti =>
      match articleLoop a ts with
      | Except.error e => Except.error e
      | Except.ok rest => Except.ok ({ title := ti, text := t } :: rest)

/-- The per-article body of `Documents.load`: reading `article["FullText"]`
(error if absent) and expanding its sections. -/
def articlePassages (a : RawArticle) : Except DataFormatError (List Passage) :=
  match a.fullText? with
  | none => Except.error (DataFormatError.missingField "FullText")
  | some texts => articleLoop a texts

/-- The article loop of `Documents.load` (source lines 33-45): articles in
order, stopping once `max_articles` reaches `0`, extending the store with
each article's passages. -/
def loadLoop : List RawArticle → Nat → Except DataFormatError (List Passage)
  | _, 0 => Except.ok []
  | [], _ + 1 => Except.ok []
  | a :: rest, n + 1 =>
    match articlePassages a with
    | Except.error e => Except.error e
    | Except.ok ps =>
      match loadLoop rest n with
      | Except.error e => Except.error e
      | Except.ok others => Except.ok (ps ++ others)

/-- The fixed path `Documents.load` opens (source line 30), independent of
the constructor's `sources` argument. -/
def xrayArticlesPath : String := "datasets/xray_articles.json"

/-- The batch loop of `Documents.embed` (source lines 54-65): each
iteration takes the next `batch_size` passages, sends their texts to the
backend in document mode, and appends the returned vectors.  The auxiliary
fuel argument (always instantiated with the list length, which suffices
because every batch consumes at least one passage) keeps the recursion
structural. -/
def embedGo (co : Backend) (batch_size : Nat) : Nat → List Passage → Except String (List Vec)
  | _, [] => Except.ok []
  | 0, _ => Except.ok []
  | fuel + 1, d :: ds =>
    match co.embed ((d :: ds.take (batch_size - 1)).map Passage.text)
        "embed-english-v3.0" "search_document" with
    | Except.error e => Except.error e
    | Except.ok batch_embs =>
      match embedGo co batch_size fuel (ds.drop (batch_size - 1)) with
      | Except.error e => Except.error e
      | Except.ok rest => Except.ok (batch_embs ++ rest)

/-- `Documents.embed` generalised over the batch size; the source fixes
`batch_size = 90` (line 54). -/
def embedAll (co : Backend) (batch_size : Nat) (docs : List Passage) : Except String (List Vec) :=
  embedGo co batch_size docs.length docs

/-- The consecutive batches `Documents.embed` forms, i.e. the slices
`docs[i : i + batch_size]` for `i = 0, batch_size, 2*batch_size, ...`
(fuel as in `embedGo`). -/
def toBatchesGo (batch_size : Nat) : Nat → List α → List (List α)
  | _, [] => []
  | 0, _ => []
  | fuel + 1, x :: xs =>
    (x :: xs.take (batch_size - 1)) :: toBatchesGo batch_size fuel (xs.drop (batch_size - 1))

/-- The partition of a passage list into consecutive batches of at most
`batch_size`. -/
def toBatches (batch_size : Nat) (l : List α) : List (List α) :=
  toBatchesGo batch_size l.length l

/-- A failure of the `Documents` constructor pipeline (load, embed,
index). -/
inductive InitError where
  | fileError : InitError
  | dataFormat (e : DataFormatError) : InitError
  | backend (msg : String) : InitError
deriving DecidableEq, Repr

/-- A failure during `Documents.retrieve`: a backend (embedding or rerank)
error, an index-search error, or a Python `IndexError` from list
indexing. -/
inductive RetrieveError where
  | backend (msg : String) : RetrieveError
  | indexError (msg : String) : RetrieveError
  | outOfRange : RetrieveError
deriving DecidableEq, Repr

/-- The state of a constructed `Documents` object: its instance attributes
(source lines 13-22, `docs_len` set in `embed`, `index` replaced by the
built hnswlib object). -/
structure Documents where
  sources : Option (List (List (String × String)))
  docs : List Passage
  docs_embs : List Vec
  docs_len : Nat
  retrieve_top_k : Nat
  rerank_top_k : Nat
  index : VectorIndex

/-- The `Documents` constructor (source lines 13-22): store `sources`, set
`retrieve_top_k = 500` and `rerank_top_k = 100`, then run
`load` (from the fixed dataset path, `max_articles = 500`), `embed`
(batch size 90) and `index`.  `fs` models the filesystem: the parsed
content of each readable JSON file. -/
def Documents.init (sources : Option (List (List (String × String)))) (co : Backend)
    (fs : String → Option (List RawArticle)) : Except InitError Documents :=
  match fs xrayArticlesPath with
  | none => Except.error InitError.fileError
  | some articles =>
    match loadLoop articles 500 with
    | Except.error e => Except.error (InitError.dataFormat e)
    | Except.ok docs =>
      match embedAll co 90 docs with
      | Except.error e => Except.error (InitError.backend e)
      | Except.ok docs_embs =>
        Except.ok
          { sources := sources
            docs := docs
            docs_embs := docs_embs
            docs_len := docs.length
            retrieve_top_k := 500
            rerank_top_k := 100
            index := buildIndex docs_embs }

/-- Python list indexing `l[i]`: the element, or an `IndexError`. -/
def pyGet (l : List α) (i : Nat) : Except RetrieveError α :=
  match l.get? i with
  | some a => Except.ok a
  | none => Except.error RetrieveError.outOfRange

/-- Source lines 98-100: `docs_to_rerank.append(self.docs[doc_id]["text"])`
for each candidate position. -/
def getTexts (docs : List Passage) : List Nat → Except RetrieveError (List String)
  | [] => Except.ok []
  | i :: is =>
    match pyGet docs i with
    | Except.error e => Except.error e
    | Except.ok p =>
      match getTexts docs is with
      | Except.error e => Except.error e
      | Except.ok rest => Except.ok (p.text :: rest)

/-- Source lines 109-111: `doc_ids_reranked.append(doc_ids[result.index])`
for each rerank result. -/
def mapRerankIds (doc_ids : List Nat) : List RerankResult → Except RetrieveError (List Nat)
  | [] => Except.ok []
  | r :: rs =>
    match pyGet doc_ids r.index with
    | Except.error e => Except.error e
    | Except.ok i =>
      match mapRerankIds doc_ids rs with
      | Except.error e => Except.error e
      | Except.ok rest => Except.ok (i :: rest)

/-- Source lines 113-119: build the returned title/text records from the
reranked positions. -/
def resolvePassages (docs : List Passage) : List Nat → Except RetrieveError (List Passage)
  | [] => Except.ok []
  | i :: is =>
    match pyGet docs i with
    | Except.error e => Except.error e
    | Except.ok p =>
      match resolvePassages docs is with
      | Except.error e => Except.error e
      | Except.ok rest => Except.ok ({ title := p.title, text := p.text } :: rest)

/-- The body of `Documents.retrieve` (source lines 79-121): embed the
query in query mode, search the index with `k = retrieve_top_k`, collect
the candidate texts, rerank with `top_n = rerank_top_k`, map the rerank
indices back through `doc_ids`, and resolve to title/text records. -/
def Documents.retrieveResult (st : Documents) (co : Backend) (q : String) :
    Except RetrieveError (List Passage) :=
  match co.embed [q] "embed-english-v3.0" "search_query" with
  | Except.error e => Except.error (RetrieveError.backend e)
  | Except.ok query_emb =>
    match st.index.knn_query query_emb st.retrieve_top_k with
    | Except.error e => Except.error (RetrieveError.indexError e)
    | Except.ok doc_ids =>
      match getTexts st.docs doc_ids with
      | Except.error e => Except.error e
      | Except.ok docs_to_rerank =>
        match co.rerank q docs_to_rerank st.rerank_top_k "rerank-english-v2.0" with
        | Except.error e => Except.error (RetrieveError.backend e)
        | Except.ok rerank_results =>
          match mapRerankIds doc_ids rerank_results with
          | Except.error e => Except.error e
          | Except.ok doc_ids_reranked => resolvePassages st.docs doc_ids_reranked

/-- `Documents.retrieve` with the object state threaded explicitly: the
method assigns no instance attribute, so the post-state is the input
state. -/
def Documents.retrieve (st : Documents) (co : Backend) (q : String) :
    Except RetrieveError (List Passage) × Documents :=
  (st.retrieveResult co q, st)

/-- The passages one well-formed article contributes: one per text
section, each carrying the article's title. -/
def articleChunks (a : RawArticle) : List Passage :=
  match a.title?, a.fullText? with
  | some t, some texts => texts.map fun s => { title := t, text := s }
  | _, _ => []

/-- An article with both expected fields present. -/
abbrev RawArticle.wellFormed (a : RawArticle) : Prop :=
  a.title?.isSome = true ∧ a.fullText?.isSome = true

/-- The exact condition under which processing one article raises: the
`"FullText"` key is absent, or the `"Title"` key is absent while the
section list is non-empty (the title is only read inside the section
loop). -/
abbrev RawArticle.loadAccessFails (a : RawArticle) : Prop :=
  a.fullText? = none ∨ (a.title? = none ∧ a.fullText? ≠ some [])

/-- A malformed article: the `"Title"` key is absent (and its section
list is empty). -/
def badArticle : RawArticle := { title? := none, fullText? := some [] }

/-- A deterministic mock backend: every text embeds to the fixed vector
`[1]`, and rerank returns the candidates in reverse input order, truncated
to `top_n`. -/
def demoBackend : Backend :=
  { embed := fun ts _ _ => Except.ok (ts.map fun _ => ([1] : Vec))
    rerank := fun _ ds n _ =>
      Except.ok (((List.range ds.length).reverse.take n).map fun i =>
        { index := i, relevance_score := 0 }) }

/-- A parsed dataset of one article with five text sections (a 5-passage
corpus). -/
def demoFile : List RawArticle :=
  [{ title? := some "Chest Imaging", fullText? := some ["s0", "s1", "s2", "s3", "s4"] }]

/-- A filesystem on which every path reads as `demoFile`. -/
def demoFs : String → Option (List RawArticle) := fun _ => some demoFile

/-- A 5-passage chunk store with distinct titles and texts. -/
def demoDocs : List Passage :=
  [{ title := "T0", text := "x0" }, { title := "T1", text := "x1" },
   { title := "T2", text := "x2" }, { title := "T3", text := "x3" },
   { title := "T4", text := "x4" }]

/-- A mock vector index over the 5-passage corpus whose top-3 answer is
the position list `[3, 1, 4]`. -/
def demoIndex : VectorIndex :=
  { count := 5
    knn_query := fun _ k =>
      if k = 3 then Except.ok [3, 1, 4] else Except.error "unexpected k" }

/-- A retrieval state over `demoDocs` with `retrieve_top_k = 3` and
`rerank_top_k = 2`. -/
def demoState : Documents :=
  { sources := none
    docs := demoDocs
    docs_embs := demoDocs.map fun _ => [1]
    docs_len := 5
    retrieve_top_k := 3
    rerank_top_k := 2
    index := demoIndex }

/-- A backend whose every call fails. -/
def failBackend : Backend :=
  { embed := fun _ _ _ => Except.error "backend down"
    rerank := fun _ _ _ _ => Except.error "backend down" }

/-- An empty retrieval state with the source's default depths. -/
def emptyState : Documents :=
  { sources := none
    docs := []
    docs_embs := []
    docs_len := 0
    retrieve_top_k := 500
    rerank_top_k := 100
    index := buildIndex [] }

/-- Two articles titled `"A"` and `"B"` with 3 and 2 text sections. -/
def abArticles : List RawArticle :=
  [{ title? := some "A", fullText? := some ["a0", "a1", "a2"] },
   { title? := some "B", fullText? := some ["b0", "b1"] }]

/-- `articleLoop` on an article with a present title expands every
section to a titled passage. -/
theorem articleLoop_ok (a : RawArticle) (t : String) (ht : a.title? = some t) :
    ∀ ts : List String,
      articleLoop a ts = Except.ok (ts.map fun s => { title := t, text := s })
  | [] => rfl
  | s :: ss => by
      simp only [articleLoop, ht, articleLoop_ok a t ht ss, List.map_cons]

/-- `articlePassages` on a well-formed article returns its chunk
expansion. -/
theorem articlePassages_ok (a : RawArticle) (h : a.wellFormed) :
    articlePassages a = Except.ok (articleChunks a) := by
  obtain ⟨ht, hf⟩ := h
  obtain ⟨t, ht⟩ := Option.isSome_iff_exists.mp ht
  obtain ⟨texts, hf⟩ := Option.isSome_iff_exists.mp hf
  simp only [articlePassages, articleChunks, ht, hf]
  exact articleLoop_ok a t ht texts

/-- `loadLoop` on a prefix of well-formed articles produces exactly the
concatenated chunk expansions of the included articles. -/
theorem loadLoop_ok : ∀ (arts : List RawArticle) (n : Nat),
    (∀ a ∈ arts.take n, a.wellFormed) →
    loadLoop arts n = Except.ok (((arts.take n).map articleChunks).flatten)
  | arts, 0, _ => by cases arts <;> simp [loadLoop]
  | [], _ + 1, _ => rfl
  | a :: rest, n + 1, h => by
      have ha : a.wellFormed := h a (by simp)
      have ih := loadLoop_ok rest n fun b hb => h b (by simp [hb])
      simp only [loadLoop, articlePassages_ok a ha, ih, List.take_succ_cons, List.map_cons,
        List.flatten_cons]

/-- C4: for every document collection whose included entries are
well-formed, `load` produces one passage per text section of each included
document (documents in order, up to `max_documents`), each carrying its
parent document's title, and the passage count equals the total number of
text sections across included documents; positions are the indices
`0..count-1` of the produced sequence. -/
theorem load_expands_sections (arts : List RawArticle) (maxA : Nat)
    (h : ∀ a ∈ arts.take maxA, a.wellFormed) :
    loadLoop arts maxA = Except.ok (((arts.take maxA).map articleChunks).flatten) ∧
    (((arts.take maxA).map articleChunks).flatten).length
      = ((arts.take maxA).map fun a => (a.fullText?.getD []).length).sum := by
  refine ⟨loadLoop_ok arts maxA h, ?_⟩
  rw [List.length_flatten, List.map_map]
  refine congrArg List.sum (List.map_congr_left fun a ha => ?_)
  obtain ⟨ht, hf⟩ := h a ha
  obtain ⟨t, ht⟩ := Option.isSome_iff_exists.mp ht
  obtain ⟨texts, hf⟩ := Option.isSome_iff_exists.mp hf
  simp [articleChunks, ht, hf]

/-- Witness for C4: two documents titled `"A"` and `"B"` with 3 and 2
sections yield 5 passages, positions 0-2 titled `"A"` and 3-4 titled
`"B"`. -/
theorem load_expands_sections_witness :
    (∀ a ∈ abArticles.take 500, a.wellFormed) ∧
    loadLoop abArticles 500
      = Except.ok [{ title := "A", text := "a0" }, { title := "A", text := "a1" },
          { title := "A", text := "a2" }, { title := "B", text := "b0" },
          { title := "B", text := "b1" }] :=
  ⟨by decide, (load_expands_sections abArticles 500 (by decide)).1⟩

/-- `articleLoop` raises exactly when the title is absent and there is at
least one section. -/
theorem articleLoop_error_iff (a : RawArticle) :
    ∀ ts : List String,
      (∃ e, articleLoop a ts = Except.error e) ↔ (a.title? = none ∧ ts ≠ [])
  | [] => by simp [articleLoop]
  | t :: ts => by
      cases ht : a.title? with
      | none => simp [articleLoop, ht]
      | some ti =>
        cases hl : articleLoop a ts with
        | error e =>
          exact absurd ((articleLoop_error_iff a ts).mp ⟨e, hl⟩) (by simp [ht])
        | ok rest => simp [articleLoop, ht, hl]

/-- Processing one article raises exactly on `loadAccessFails`. -/
theorem articlePassages_error_iff (a : RawArticle) :
    (∃ e, articlePassages a = Except.error e) ↔ a.loadAccessFails := by
  cases hf : a.fullText? with
  | none => simp [articlePassages, hf, RawArticle.loadAccessFails]
  | some texts =>
    simp [articlePassages, hf, RawArticle.loadAccessFails, articleLoop_error_iff a texts]

/-- C8 counterexample: a malformed collection (its only entry is missing
the `"Title"` field) on which `load` succeeds with an empty store instead
of failing — the title key is only read when an entry's section list is
non-empty. -/
theorem load_malformed_no_error :
    (¬ badArticle.wellFormed) ∧ loadLoop [badArticle] 500 = Except.ok [] :=
  ⟨by decide, rfl⟩

/-- C8 amended: `load` fails with `DataFormatError` exactly when some
entry among the first `max_documents` is missing its text-section list, or
is missing its title while having a non-empty text-section list; a missing
title with an empty section list, and malformed entries beyond the
`max_documents` cutoff, do not fail. -/
theorem load_error_iff : ∀ (arts : List RawArticle) (n : Nat),
    (∃ e, loadLoop arts n = Except.error e) ↔ ∃ a ∈ arts.take n, a.loadAccessFails
  | arts, 0 => by cases arts <;> simp [loadLoop]
  | [], _ + 1 => by simp [loadLoop]
  | a :: rest, n + 1 => by
      cases hap : articlePassages a with
      | error e =>
        have ha : a.loadAccessFails := (articlePassages_error_iff a).mp ⟨e, hap⟩
        simp only [loadLoop, hap, List.take_succ_cons]
        constructor
        · intro _
          exact ⟨a, List.mem_cons_self a _, ha⟩
        · intro _
          exact ⟨e, rfl⟩
      | ok ps =>
        have hnota : ¬ a.loadAccessFails := by
          intro hfail
          obtain ⟨e, he⟩ := (articlePassages_error_iff a).mpr hfail
          rw [hap] at he
          simp at he
        cases hll : loadLoop rest n with
        | error e =>
          have hr := (load_error_iff rest n).mp ⟨e, hll⟩
          obtain ⟨b, hb, hbf⟩ := hr
          simp only [loadLoop, hap, hll, List.take_succ_cons]
          constructor
          · intro _
            exact ⟨b, List.mem_cons_of_mem a hb, hbf⟩
          · intro _
            exact ⟨e, rfl⟩
        | ok others =>
          simp only [loadLoop, hap, hll, List.take_succ_cons]
          constructor
          · rintro ⟨e, he⟩
            simp at he
          · rintro ⟨b, hb, hbf⟩
            rcases List.mem_cons.mp hb with rfl | hb
            · exact absurd hbf hnota
            · obtain ⟨e, he⟩ := (load_error_iff rest n).mpr ⟨b, hb, hbf⟩
              rw [hll] at he
              simp at he

/-- Batches flatten back to the input list (fuel at least the length). -/
theorem toBatchesGo_flatten (bs : Nat) : ∀ (fuel : Nat) (l : List α), l.length ≤ fuel →
    (toBatchesGo bs fuel l).flatten = l
  | fuel, [], _ => by cases fuel <;> rfl
  | 0, x :: xs, h => by simp at h
  | fuel + 1, x :: xs, h => by
      have ih := toBatchesGo_flatten bs fuel (xs.drop (bs - 1)) (by
        simp only [List.length_cons] at h
        simp only [List.length_drop]
        omega)
      simp only [toBatchesGo, List.flatten_cons, ih, List.cons_append, List.take_append_drop]

/-- Every batch is non-empty and holds at most `batch_size` passages. -/
theorem toBatchesGo_le (bs : Nat) (hbs : 0 < bs) : ∀ (fuel : Nat) (l : List α),
    ∀ b ∈ toBatchesGo bs fuel l, 0 < b.length ∧ b.length ≤ bs
  | _, [], b, hb => by simp [toBatchesGo] at hb
  | 0, _ :: _, b, hb => by simp [toBatchesGo] at hb
  | fuel + 1, x :: xs, b, hb => by
      simp only [toBatchesGo, List.mem_cons] at hb
      rcases hb with rfl | hb
      · refine ⟨by simp, ?_⟩
        simp only [List.length_cons, List.length_take]
        omega
      · exact toBatchesGo_le bs hbs fuel (xs.drop (bs - 1)) b hb

/-- The embedding loop under an order-preserving backend (one vector per
input text, in input order) returns one vector per passage, in passage
order, for any fuel at least the length. -/
theorem embedGo_ok (co : Backend) (f : String → Vec)
    (hco : ∀ ts, co.embed ts "embed-english-v3.0" "search_document" = Except.ok (ts.map f)) :
    ∀ (bs fuel : Nat) (docs : List Passage), docs.length ≤ fuel →
      embedGo co bs fuel docs = Except.ok (docs.map fun p => f p.text)
  | _, fuel, [], _ => by cases fuel <;> rfl
  | _, 0, _ :: _, h => by simp at h
  | bs, fuel + 1, d :: ds, h => by
      have ih := embedGo_ok co f hco bs fuel (ds.drop (bs - 1)) (by
        simp only [List.length_cons] at h
        simp only [List.length_drop]
        omega)
      simp only [embedGo, hco, ih, List.map_map, Function.comp_def]
      rw [← List.map_append]
      rw [show (d :: ds.take (bs - 1)) ++ ds.drop (bs - 1) = d :: ds from by
        rw [List.cons_append, List.take_append_drop]]

/-- C3: the embedding step partitions the passages into consecutive
non-empty batches of at most `batch_size` (the batches flatten back to the
input), issues one embedding call per batch in document mode, and
concatenates the per-batch results; under the backend contract (one vector
per text, in order) it yields exactly one vector per passage in input
order, for every positive batch size and in particular for the source's
fixed batch size 90. -/
theorem embed_batches_order (co : Backend) (f : String → Vec) (bs : Nat) (docs : List Passage)
    (hco : ∀ ts, co.embed ts "embed-english-v3.0" "search_document" = Except.ok (ts.map f))
    (hbs : 0 < bs) :
    (toBatches bs docs).flatten = docs ∧
    (∀ b ∈ toBatches bs docs, 0 < b.length ∧ b.length ≤ bs) ∧
    embedAll co bs docs = Except.ok (docs.map fun p => f p.text) ∧
    embedAll co 90 docs = Except.ok (docs.map fun p => f p.text) :=
  ⟨toBatchesGo_flatten bs docs.length docs (le_refl _),
   toBatchesGo_le bs hbs docs.length docs,
   embedGo_ok co f hco bs docs.length docs (le_refl _),
   embedGo_ok co f hco 90 docs.length docs (le_refl _)⟩

/-- Witness for C3 at the 5-passage corpus with batch size 91 (and the
source's 90). -/
theorem embed_batches_order_witness :
    (∀ ts, demoBackend.embed ts "embed-english-v3.0" "search_document"
        = Except.ok (ts.map fun _ => ([1] : Vec))) ∧ 0 < 91 ∧
    ((toBatches 91 demoDocs).flatten = demoDocs ∧
     (∀ b ∈ toBatches 91 demoDocs, 0 < b.length ∧ b.length ≤ 91) ∧
     embedAll demoBackend 91 demoDocs
        = Except.ok (demoDocs.map fun p => (fun _ => ([1] : Vec)) p.text) ∧
     embedAll demoBackend 90 demoDocs
        = Except.ok (demoDocs.map fun p => (fun _ => ([1] : Vec)) p.text)) :=
  ⟨fun _ => rfl, by decide,
   embed_batches_order demoBackend (fun _ => [1]) 91 demoDocs (fun _ => rfl) (by decide)⟩

/-- C9: `max_documents = 0` yields an empty store for every collection,
and the embedding step and index build on the empty passage sequence
complete without error, producing an empty index. -/
theorem max_zero_empty_pipeline (arts : List RawArticle) (co : Backend) :
    loadLoop arts 0 = Except.ok [] ∧ embedAll co 90 [] = Except.ok [] ∧
    (buildIndex []).count = 0 := by
  refine ⟨?_, rfl, rfl⟩
  cases arts <;> rfl

/-- `pyGet` at an in-bounds index succeeds with that element. -/
theorem pyGet_ok [Inhabited α] (l : List α) (i : Nat) (h : i < l.length) :
    pyGet l i = Except.ok (l.getD i default) := by
  simp only [pyGet, List.get?_eq_get h, List.getD_eq_getElem l default h]
  rfl

/-- `getD` at an in-bounds index is a member of the list. -/
theorem getD_mem [Inhabited α] (l : List α) (i : Nat) (h : i < l.length) :
    l.getD i default ∈ l := by
  rw [List.getD_eq_getElem l default h]
  exact List.getElem_mem h

/-- Candidate-text collection succeeds on in-bounds positions. -/
theorem getTexts_ok (docs : List Passage) : ∀ (ids : List Nat),
    (∀ i ∈ ids, i < docs.length) →
    getTexts docs ids = Except.ok (ids.map fun i => (docs.getD i default).text)
  | [], _ => rfl
  | i :: is, h => by
      have hi : i < docs.length := h i (by simp)
      have ih := getTexts_ok docs is fun j hj => h j (by simp [hj])
      simp only [getTexts, pyGet_ok docs i hi, ih, List.map_cons]

/-- Mapping rerank results back through `doc_ids` succeeds on in-bounds
rerank indices. -/
theorem mapRerankIds_ok (ids : List Nat) : ∀ (rs : List RerankResult),
    (∀ r ∈ rs, r.index < ids.length) →
    mapRerankIds ids rs = Except.ok (rs.map fun r => ids.getD r.index default)
  | [], _ => rfl
  | r :: rs, h => by
      have hr : r.index < ids.length := h r (by simp)
      have ih := mapRerankIds_ok ids rs fun s hs => h s (by simp [hs])
      simp only [mapRerankIds, pyGet_ok ids r.index hr, ih, List.map_cons]

/-- Passage resolution succeeds on in-bounds positions, producing
title/text records. -/
theorem resolvePassages_ok (docs : List Passage) : ∀ (ids : List Nat),
    (∀ i ∈ ids, i < docs.length) →
    resolvePassages docs ids = Except.ok (ids.map fun i =>
      { title := (docs.getD i default).title, text := (docs.getD i default).text })
  | [], _ => rfl
  | i :: is, h => by
      have hi : i < docs.length := h i (by simp)
      have ih := resolvePassages_ok docs is fun j hj => h j (by simp [hj])
      simp only [resolvePassages, pyGet_ok docs i hi, ih, List.map_cons]

/-- The full successful run of `retrieve`: given the backend and index
answers, the result maps each rerank result through the candidate-position
list and resolves it in the chunk store, in rerank order. -/
theorem retrieveResult_run (st : Documents) (co : Backend) (q : String)
    (qe : List Vec) (ids : List Nat) (rr : List RerankResult)
    (hq : co.embed [q] "embed-english-v3.0" "search_query" = Except.ok qe)
    (hk : st.index.knn_query qe st.retrieve_top_k = Except.ok ids)
    (hid : ∀ i ∈ ids, i < st.docs.length)
    (hr : co.rerank q (ids.map fun i => (st.docs.getD i default).text)
        st.rerank_top_k "rerank-english-v2.0" = Except.ok rr)
    (hri : ∀ r ∈ rr, r.index < ids.length) :
    st.retrieveResult co q = Except.ok (rr.map fun r =>
      { title := (st.docs.getD (ids.getD r.index default) default).title,
        text := (st.docs.getD (ids.getD r.index default) default).text }) := by
  have hmem : ∀ j ∈ rr.map fun r => ids.getD r.index default, j < st.docs.length := by
    intro j hj
    obtain ⟨r, hrmem, rfl⟩ := List.mem_map.mp hj
    exact hid _ (getD_mem ids r.index (hri r hrmem))
  simp only [Documents.retrieveResult, hq, hk, getTexts_ok st.docs ids hid, hr,
    mapRerankIds_ok ids rr hri, resolvePassages_ok st.docs _ hmem, List.map_map,
    Function.comp_def]

/-- C1: `retrieve` maps the rerank result's candidate indices back through
the ordered candidate-position list returned by the index search and
returns the corresponding title/text passages from the chunk store in
exactly the rerank-assigned order. -/
theorem retrieve_rerank_order (st : Documents) (co : Backend) (q : String)
    (qe : List Vec) (ids : List Nat) (rr : List RerankResult)
    (hq : co.embed [q] "embed-english-v3.0" "search_query" = Except.ok qe)
    (hk : st.index.knn_query qe st.retrieve_top_k = Except.ok ids)
    (hid : ∀ i ∈ ids, i < st.docs.length)
    (hr : co.rerank q (ids.map fun i => (st.docs.getD i default).text)
        st.rerank_top_k "rerank-english-v2.0" = Except.ok rr)
    (hri : ∀ r ∈ rr, r.index < ids.length) :
    (st.retrieve co q).1 = Except.ok (rr.map fun r =>
      { title := (st.docs.getD (ids.getD r.index default) default).title,
        text := (st.docs.getD (ids.getD r.index default) default).text }) :=
  retrieveResult_run st co q qe ids rr hq hk hid hr hri

/-- Witness for C1, the spec's scenario: 5-passage corpus,
`retrieve_top_k = 3`, `rerank_top_k = 2`, index answer `[3, 1, 4]`, rerank
reversing its input — the result is exactly 2 passages, in the reverse of
the index's top-3 order. -/
theorem retrieve_rerank_order_witness :
    demoState.docs.length = 5 ∧ demoState.retrieve_top_k = 3 ∧ demoState.rerank_top_k = 2 ∧
    demoBackend.embed ["q"] "embed-english-v3.0" "search_query" = Except.ok [[1]] ∧
    demoState.index.knn_query [[1]] demoState.retrieve_top_k = Except.ok [3, 1, 4] ∧
    (∀ i ∈ [3, 1, 4], i < demoState.docs.length) ∧
    demoBackend.rerank "q" ([3, 1, 4].map fun i => (demoState.docs.getD i default).text)
        demoState.rerank_top_k "rerank-english-v2.0"
      = Except.ok [{ index := 2, relevance_score := 0 }, { index := 1, relevance_score := 0 }] ∧
    (∀ r ∈ [({ index := 2, relevance_score := 0 } : RerankResult),
        { index := 1, relevance_score := 0 }], r.index < ([3, 1, 4] : List Nat).length) ∧
    (demoState.retrieve demoBackend "q").1
      = Except.ok [{ title := "T4", text := "x4" }, { title := "T1", text := "x1" }] :=
  ⟨rfl, rfl, rfl, rfl, rfl, by decide, rfl, by decide,
   retrieve_rerank_order demoState demoBackend "q" [[1]] [3, 1, 4]
     [{ index := 2, relevance_score := 0 }, { index := 1, relevance_score := 0 }]
     rfl rfl (by decide) rfl (by decide)⟩

/-- A duplicate-free list of naturals all below `n` has length at most
`n`. -/
theorem nodup_lt_length_le (l : List Nat) (n : Nat) (hnd : l.Nodup) (h : ∀ i ∈ l, i < n) :
    l.length ≤ n := by
  classical
  have hsub : l.toFinset ⊆ Finset.range n := fun i hi =>
    Finset.mem_range.mpr (h i (List.mem_toFinset.mp hi))
  have hcard := Finset.card_le_card hsub
  rwa [List.toFinset_card_of_nodup hnd, Finset.card_range] at hcard

/-- C5: under the index contract (distinct valid positions, at most
`retrieve_top_k` of them) and the rerank contract (at most `rerank_top_k`
results with distinct in-range indices), the final result is a subset of
the passages resolved from the index's candidates and its length is at
most `min(rerank_top_k, retrieve_top_k, corpus size)`. -/
theorem retrieve_subset_bound (st : Documents) (co : Backend) (q : String)
    (qe : List Vec) (ids : List Nat) (rr : List RerankResult)
    (hq : co.embed [q] "embed-english-v3.0" "search_query" = Except.ok qe)
    (hk : st.index.knn_query qe st.retrieve_top_k = Except.ok ids)
    (hid : ∀ i ∈ ids, i < st.docs.length)
    (hnd : ids.Nodup)
    (hkl : ids.length ≤ st.retrieve_top_k)
    (hr : co.rerank q (ids.map fun i => (st.docs.getD i default).text)
        st.rerank_top_k "rerank-english-v2.0" = Except.ok rr)
    (hri : ∀ r ∈ rr, r.index < ids.length)
    (hrn : rr.length ≤ st.rerank_top_k)
    (hrnd : (rr.map RerankResult.index).Nodup) :
    ∃ res, (st.retrieve co q).1 = Except.ok res ∧
      (∀ p ∈ res, p ∈ ids.map fun i =>
        ({ title := (st.docs.getD i default).title,
           text := (st.docs.getD i default).text } : Passage)) ∧
      res.length ≤ min st.rerank_top_k (min st.retrieve_top_k st.docs.length) := by
  refine ⟨_, retrieveResult_run st co q qe ids rr hq hk hid hr hri, ?_, ?_⟩
  · intro p hp
    obtain ⟨r, hrmem, rfl⟩ := List.mem_map.mp hp
    exact List.mem_map.mpr ⟨ids.getD r.index default, getD_mem ids r.index (hri r hrmem), rfl⟩
  · have h1 : rr.length ≤ ids.length := by
      have hb := nodup_lt_length_le (rr.map RerankResult.index) ids.length hrnd ?_
      · simpa using hb
      · intro j hj
        obtain ⟨r, hrmem, rfl⟩ := List.mem_map.mp hj
        exact hri r hrmem
    have h2 : ids.length ≤ st.docs.length := nodup_lt_length_le ids st.docs.length hnd hid
    rw [List.length_map]
    exact le_min hrn (le_min (le_trans h1 hkl) (le_trans h1 h2))

/-- Witness for C5 at the 5-passage demo scenario. -/
theorem retrieve_subset_bound_witness :
    demoBackend.embed ["q"] "embed-english-v3.0" "search_query" = Except.ok [[1]] ∧
    demoState.index.knn_query [[1]] demoState.retrieve_top_k = Except.ok [3, 1, 4] ∧
    (∀ i ∈ [3, 1, 4], i < demoState.docs.length) ∧
    ([3, 1, 4] : List Nat).Nodup ∧
    ([3, 1, 4] : List Nat).length ≤ demoState.retrieve_top_k ∧
    demoBackend.rerank "q" ([3, 1, 4].map fun i => (demoState.docs.getD i default).text)
        demoState.rerank_top_k "rerank-english-v2.0"
      = Except.ok [{ index := 2, relevance_score := 0 }, { index := 1, relevance_score := 0 }] ∧
    (∀ r ∈ [({ index := 2, relevance_score := 0 } : RerankResult),
        { index := 1, relevance_score := 0 }], r.index < ([3, 1, 4] : List Nat).length) ∧
    ([({ index := 2, relevance_score := 0 } : RerankResult),
        { index := 1, relevance_score := 0 }].length ≤ demoState.rerank_top_k) ∧
    (([({ index := 2, relevance_score := 0 } : RerankResult),
        { index := 1, relevance_score := 0 }].map RerankResult.index).Nodup) ∧
    (∃ res, (demoState.retrieve demoBackend "q").1 = Except.ok res ∧
      (∀ p ∈ res, p ∈ [3, 1, 4].map fun i =>
        ({ title := (demoState.docs.getD i default).title,
           text := (demoState.docs.getD i default).text } : Passage)) ∧
      res.length ≤ min demoState.rerank_top_k
          (min demoState.retrieve_top_k demoState.docs.length)) :=
  ⟨rfl, rfl, by decide, by decide, by decide, rfl, by decide, by decide, by decide,
   retrieve_subset_bound demoState demoBackend "q" [[1]] [3, 1, 4]
     [{ index := 2, relevance_score := 0 }, { index := 1, relevance_score := 0 }]
     rfl rfl (by decide) (by decide) (by decide) rfl (by decide) (by decide) (by decide)⟩

/-- C6: `retrieve` leaves the object state unchanged, so a second call
with the same query against the resulting state (same store, index and
deterministic backend, which is a pure function here) returns an identical
result. -/
theorem retrieve_idempotent (st : Documents) (co : Backend) (q : String) :
    (st.retrieve co q).2 = st ∧
    (((st.retrieve co q).2).retrieve co q).1 = (st.retrieve co q).1 :=
  ⟨rfl, rfl⟩

/-- C7: a failing embedding call, or a failing rerank call, makes
`retrieve` return that backend error (no local fallback ranking), and the
object state — chunk store and index included — is unchanged by the failed
call. -/
theorem retrieve_backend_failure (st : Documents) (co : Backend) (q : String) :
    (∀ e, co.embed [q] "embed-english-v3.0" "search_query" = Except.error e →
      (st.retrieve co q).1 = Except.error (RetrieveError.backend e)) ∧
    (∀ qe ids texts e,
      co.embed [q] "embed-english-v3.0" "search_query" = Except.ok qe →
      st.index.knn_query qe st.retrieve_top_k = Except.ok ids →
      getTexts st.docs ids = Except.ok texts →
      co.rerank q texts st.rerank_top_k "rerank-english-v2.0" = Except.error e →
      (st.retrieve co q).1 = Except.error (RetrieveError.backend e)) ∧
    (st.retrieve co q).2 = st := by
  refine ⟨?_, ?_, rfl⟩
  · intro e he
    simp only [Documents.retrieve, Documents.retrieveResult, he]
  · intro qe ids texts e hq hk ht hr
    simp only [Documents.retrieve, Documents.retrieveResult, hq, hk, ht, hr]

/-- Witness for C7: a backend whose embedding call fails makes `retrieve`
fail with that backend error and leaves the state unchanged. -/
theorem retrieve_backend_failure_witness :
    failBackend.embed ["q"] "embed-english-v3.0" "search_query"
      = Except.error "backend down" ∧
    (emptyState.retrieve failBackend "q").1
      = Except.error (RetrieveError.backend "backend down") ∧
    (emptyState.retrieve failBackend "q").2 = emptyState :=
  ⟨rfl, (retrieve_backend_failure emptyState failBackend "q").1 "backend down" rfl,
   (retrieve_backend_failure emptyState failBackend "q").2.2⟩

/-- C2 (code bug): `retrieve` passes `retrieve_top_k` to the index search
unclamped.  On a 5-passage corpus built through the real constructor, the
default `retrieve_top_k = 500` reaches `knn_query` unchanged, so the index
is queried with `k` greater than the stored count (the index's over-large
`k` error surfaces) instead of `k` being clamped to the corpus size. -/
theorem retrieve_unclamped_k :
    (Documents.init none demoBackend demoFs).map (fun st => st.retrieve_top_k)
      = Except.ok 500 ∧
    (Documents.init none demoBackend demoFs).map (fun st => st.docs.length)
      = Except.ok 5 ∧
    (Documents.init none demoBackend demoFs).map
        (fun st => (st.retrieve demoBackend "query").1)
      = Except.ok (Except.error (RetrieveError.indexError "knn_query: k exceeds stored count")) :=
  ⟨rfl, rfl, rfl⟩

/-- C10: the chunk store is independent of the constructor's `sources`
argument — for any two `sources` values and any two filesystems that agree
on the fixed path `datasets/xray_articles.json`, the constructed stores
hold the same passage sequence. -/
theorem docs_independent_of_sources (s1 s2 : Option (List (List (String × String))))
    (fs1 fs2 : String → Option (List RawArticle)) (co : Backend)
    (hfs : fs1 xrayArticlesPath = fs2 xrayArticlesPath) :
    (Documents.init s1 co fs1).map Documents.docs
      = (Documents.init s2 co fs2).map Documents.docs := by
  unfold Documents.init
  rw [hfs]
  rcases fs2 xrayArticlesPath with _ | articles
  · rfl
  · dsimp only
    split
    · rfl
    · split <;> rfl

/-- Witness for C10: `sources = none` and a non-trivial `sources` value
load the same store from the same file. -/
theorem docs_independent_of_sources_witness :
    demoFs xrayArticlesPath = demoFs xrayArticlesPath ∧
    (Documents.init none demoBackend demoFs).map Documents.docs
      = (Documents.init (some [[("alpha", "beta")]]) demoBackend demoFs).map Documents.docs :=
  ⟨rfl,
   docs_independent_of_sources none (some [[("alpha", "beta")]]) demoFs demoFs demoBackend rfl⟩

end RAG
